import Mathlib

/-!
Verification of the escape-sequence interpreter and display-preparation
pipeline of the `ov` terminal pager (package `oviewer`).

The ANSI escape-sequence interpreter is embedded from
`oviewer/convert_es.go`.  Go strings are embedded as `List Char` (the code
iterates over runes), Go `int` values coming from digit parsing as `Nat`,
and fallible parsing functions return `Option` (the Go code returns an
`error` that callers only test for being non-nil).  The process-wide
`sync.Map` SGR cache is embedded as an explicit association list threaded
through `sgrStyleC`.

`tcell.Style` is an opaque value of the external tcell library; it is
embedded as a record of the components the interpreter reads or writes
(foreground, background, attribute bits, OSC-8 url and url id), with
`tcell.PaletteColor(n).String()` kept abstract as an injective encoding
`tcellPaletteColor`.

Parts of the repository that the claims depend on but whose sources are
not available (the viewport planner `prepareDraw`, the section analyzer,
`applyStyle`, and the per-line cell builder) are modelled from the
specification; each such definition carries a doc comment saying so.
-/

/-- `OVStyle` from the `oviewer` package: a style delta with paired
on/off bits and foreground/background color names (embedded from the
field uses in `convert_es.go`). -/
structure OVStyle where
  Foreground : String := ""
  Background : String := ""
  Bold : Bool := false
  UnBold : Bool := false
  Dim : Bool := false
  UnDim : Bool := false
  Italic : Bool := false
  UnItalic : Bool := false
  Underline : Bool := false
  UnUnderline : Bool := false
  Blink : Bool := false
  UnBlink : Bool := false
  Reverse : Bool := false
  UnReverse : Bool := false
  StrikeThrough : Bool := false
  UnStrikeThrough : Bool := false
  OverLine : Bool := false
  UnOverLine : Bool := false
  deriving DecidableEq, Repr

/-- The zero value `OVStyle{}` of Go: the empty style delta. -/
def OVStyle.empty : OVStyle := {}

/-- Model of the external `tcell.Style`: the components that
`convert_es.go` reads (`Decompose`) or writes (`Foreground`, `Background`,
attribute setters, `Url`, `UrlId`). -/
structure TcellStyle where
  fg : String := "default"
  bg : String := "default"
  bold : Bool := false
  dim : Bool := false
  italic : Bool := false
  underline : Bool := false
  blink : Bool := false
  reverse : Bool := false
  strikeThrough : Bool := false
  overLine : Bool := false
  url : String := ""
  urlId : String := ""
  deriving DecidableEq, Repr

/-- `tcell.StyleDefault`: terminal default colors, no attributes, no
hyperlink. -/
def TcellStyle.styleDefault : TcellStyle := {}

/-- `tcell.Style.Normal()`: clears every attribute bit. -/
def TcellStyle.normal (t : TcellStyle) : TcellStyle :=
  { t with bold := false, dim := false, italic := false, underline := false,
           blink := false, reverse := false, strikeThrough := false,
           overLine := false }

/-- `tcell.StyleDefault.Normal()`, the style returned by the SGR reset. -/
def TcellStyle.defaultNormal : TcellStyle := TcellStyle.styleDefault.normal

/-- Modelled from the spec: `applyStyle` (ov `style.go`, not in the
sources) merges an `OVStyle` delta into a `tcell.Style` following the
spec's OR-ing rule: an explicit off (Un) bit wins over the paired on bit,
a bit not mentioned is kept, and a non-empty color replaces while `""`
leaves the previous value.  The hyperlink fields are not part of the
delta and are kept. -/
def applyStyle (t : TcellStyle) (s : OVStyle) : TcellStyle :=
  { fg := if s.Foreground ≠ "" then s.Foreground else t.fg
    bg := if s.Background ≠ "" then s.Background else t.bg
    bold := if s.Bold then true else if s.UnBold then false else t.bold
    dim := if s.Dim then true else if s.UnDim then false else t.dim
    italic := if s.Italic then true else if s.UnItalic then false else t.italic
    underline := if s.Underline then true else if s.UnUnderline then false else t.underline
    blink := if s.Blink then true else if s.UnBlink then false else t.blink
    reverse := if s.Reverse then true else if s.UnReverse then false else t.reverse
    strikeThrough := if s.StrikeThrough then true else if s.UnStrikeThrough then false else t.strikeThrough
    overLine := if s.OverLine then true else if s.UnOverLine then false else t.overLine
    url := t.url
    urlId := t.urlId }

/-- Abstract model of `tcell.PaletteColor(n).String()` of the external
tcell library: an injective name for palette entry `n`. -/
def tcellPaletteColor (n : Nat) : String := "palette:" ++ Nat.repr n

/-- `colorName` of `convert_es.go`: the tcell color name of a palette
index, `""` when out of range (the index, parsed from digits, is never
negative here). -/
def colorName (colorNumber : Nat) : String :=
  if colorNumber > 255 then "" else tcellPaletteColor colorNumber

/-- `containsNonDigit` of `convert_es.go` (Go `unicode.IsDigit` is
restricted to the ASCII digits actually relevant to SGR parameters). -/
def containsNonDigit (str : List Char) : Bool :=
  str.any (fun c => !c.isDigit)

/-- Numeric value of a digit string, as computed by `strconv.Atoi` on an
all-digit string. -/
def digitsToNat (l : List Char) : Nat :=
  l.foldl (fun n c => n * 10 + (c.toNat - '0'.toNat)) 0

/-- `sgrNumber` of `convert_es.go`: `""` parses to 0, a digit string to
its value, anything containing a non-digit is an error (`none`). -/
def sgrNumber (str : List Char) : Option Nat :=
  if str = [] then some 0
  else if containsNonDigit str then none
  else some (digitsToNat str)

/-- `strings.Split` on a single separator character. -/
def splitOnChar (c : Char) : List Char → List (List Char)
  | [] => [[]]
  | x :: xs =>
    if x = c then [] :: splitOnChar c xs
    else
      match splitOnChar c xs with
      | [] => [[x]]
      | h :: t => (x :: h) :: t

/-- `sgrParams` of `convert_es.go`. -/
structure sgrParams where
  code : Nat
  params : List (List Char) := []
  colonF : Bool := false
  deriving DecidableEq, Repr

/-- `toSGRCode` of `convert_es.go`: the element's colon head is the code;
a colon tail supplies the parameters (colon form), otherwise the
remaining outer elements do for codes 38/48/58. -/
def toSGRCode (str : List Char) (rest : List (List Char)) : Option sgrParams :=
  match splitOnChar ':' str with
  | [] => none
  | h :: t =>
    match sgrNumber h with
    | none => none
    | some code =>
      if t ≠ [] then some { code := code, params := t, colonF := true }
      else if code = 38 ∨ code = 48 ∨ code = 58 then
        some { code := code, params := rest, colonF := false }
      else some { code := code }

/-- `underLineStyle` of `convert_es.go`: only `4:0` is underline off;
a parse error leaves the delta unchanged; anything else is underline on. -/
def underLineStyle (s : OVStyle) (param : List Char) : OVStyle :=
  match sgrNumber param with
  | none => s
  | some 0 => { s with Underline := false, UnUnderline := true }
  | some _ => { s with Underline := true, UnUnderline := false }

/-- `parse256Color` of `convert_es.go`. -/
def parse256Color (param : List Char) : Option String :=
  if param = [] then some ""
  else
    match sgrNumber param with
    | none => none
    | some c => some (colorName c)

/-- Lower-case hex digit. -/
def hexDigitChar (n : Nat) : Char :=
  if n < 10 then Char.ofNat ('0'.toNat + n) else Char.ofNat ('a'.toNat + (n - 10))

/-- Two-digit lower-case hex of a byte, as `fmt.Sprintf("%02x", n)`. -/
def toHex2 (n : Nat) : String :=
  String.mk [hexDigitChar (n / 16), hexDigitChar (n % 16)]

/-- `parseRGBColor` of `convert_es.go`: empty components give `""`, a
non-digit is an error, out-of-range components give `""`, otherwise
`#rrggbb`. -/
def parseRGBColor (red green blue : List Char) : Option String :=
  if red = [] ∨ green = [] ∨ blue = [] then some ""
  else
    match sgrNumber red, sgrNumber green, sgrNumber blue with
    | some r, some g, some b =>
      if r > 255 ∨ g > 255 ∨ b > 255 then some ""
      else some ("#" ++ toHex2 r ++ toHex2 g ++ toHex2 b)
    | _, _, _ => none

/-- `convertSGRColor` of `convert_es.go`: interprets the extended-color
parameters `5;n` (palette) or `2;r;g;b` (RGB, with the `2::r:g:b`
double-colon spelling in colon form), returning the color and the number
of outer parameters consumed. -/
def convertSGRColor (sgr : sgrParams) : Option (String × Nat) :=
  match sgr.params with
  | [] => some ("", 0)
  | p0 :: tail =>
    match sgrNumber p0 with
    | none => none
    | some ex =>
      if ex = 5 then
        match tail with
        | [] => some ("", 1)
        | p1 :: _ =>
          match parse256Color p1 with
          | none => none
          | some color => some (color, 2)
      else if ex = 2 then
        match tail with
        | p1 :: p2 :: p3 :: rest4 =>
          let rgb := if sgr.colonF ∧ p1 = [] ∧ rest4 ≠ [] then
                       (p2, p3, rest4.headD []) else (p1, p2, p3)
          match parseRGBColor rgb.1 rgb.2.1 rgb.2.2 with
          | none => none
          | some color => some (color, 4)
        | _ => some ("", sgr.params.length)
      else some ("", 1)

/-- `parseSGRColor` of `convert_es.go`: like `convertSGRColor` but in the
colon form the outer index does not advance. -/
def parseSGRColor (sgr : sgrParams) : Option (String × Nat) :=
  match convertSGRColor sgr with
  | none => none
  | some (color, inc) => some (color, if sgr.colonF then 0 else inc)

/-- Outcome of one iteration of the `parseSGR` loop: abort the whole
parse with an empty delta, stop returning the delta so far, or continue
after skipping `skip` further outer parameters. -/
inductive SGRStep where
  | abort : SGRStep
  | stop : OVStyle → SGRStep
  | next : OVStyle → Nat → SGRStep
  deriving DecidableEq, Repr

/-- The simple attribute cases of the `switch sgr.code` in `parseSGR`
(`convert_es.go`): every case except 4, 38, 48 and 58, which take
parameters and are handled in `execSGRCode`.  Unknown codes change
nothing. -/
def applySimpleCode (code : Nat) (s : OVStyle) : OVStyle :=
  if code = 0 then {}
  else if code = 1 then { s with Bold := true, UnBold := false }
  else if code = 2 then { s with Dim := true, UnDim := false }
  else if code = 3 then { s with Italic := true, UnItalic := false }
  else if code = 5 then { s with Blink := true, UnBlink := false }
  else if code = 6 then { s with Blink := true, UnBlink := false }
  else if code = 7 then { s with Reverse := true, UnReverse := false }
  else if code = 9 then { s with StrikeThrough := true, UnStrikeThrough := false }
  else if code = 21 then { s with Underline := true, UnUnderline := false }
  else if code = 22 then { s with Bold := false, UnBold := true }
  else if code = 23 then { s with Italic := false, UnItalic := true }
  else if code = 24 then { s with Underline := false, UnUnderline := true }
  else if code = 25 then { s with Blink := false, UnBlink := true }
  else if code = 27 then { s with Reverse := false, UnReverse := true }
  else if code = 29 then { s with StrikeThrough := false, UnStrikeThrough := true }
  else if 30 ≤ code ∧ code ≤ 37 then { s with Foreground := colorName (code - 30) }
  else if code = 39 then { s with Foreground := "default" }
  else if 40 ≤ code ∧ code ≤ 47 then { s with Background := colorName (code - 40) }
  else if code = 49 then { s with Background := "default" }
  else if code = 53 then { s with OverLine := true }
  else if code = 55 then { s with UnOverLine := true }
  else if 90 ≤ code ∧ code ≤ 97 then { s with Foreground := colorName (code - 82) }
  else if 100 ≤ code ∧ code ≤ 107 then { s with Background := colorName (code - 92) }
  else s

/-- One iteration of the `parseSGR` loop body (`convert_es.go`): code 38
or 48 sets the extended color and advances by its consumed parameter
count, aborting the parse on a color parse error; code 58 parses and
ignores, but a color parse error there returns the delta accumulated so
far; code 4 with a (colon) parameter defers to `underLineStyle`; every
other code is a simple attribute case. -/
def execSGRCode (sgr : sgrParams) (s : OVStyle) : SGRStep :=
  if sgr.code = 38 then
    match parseSGRColor sgr with
    | none => .abort
    | some (color, inc) => .next { s with Foreground := color } inc
  else if sgr.code = 48 then
    match parseSGRColor sgr with
    | none => .abort
    | some (color, inc) => .next { s with Background := color } inc
  else if sgr.code = 58 then
    match parseSGRColor sgr with
    | none => .stop s
    | some (_, inc) => .next s inc
  else if sgr.code = 4 then
    match sgr.params with
    | p0 :: _ =>
      if p0 ≠ [] then .next (underLineStyle s p0) 0
      else .next { s with Underline := true, UnUnderline := false } 0
    | [] => .next { s with Underline := true, UnUnderline := false } 0
  else .next (applySimpleCode sgr.code s) 0

/-- The `for index` loop of `parseSGR` (`convert_es.go`), as structural
recursion on the suffix of the semicolon-split parameter list: the second
argument counts outer parameters still to be skipped because the previous
code consumed them (`index += i` in the source). -/
def parseSGRLoop : List (List Char) → Nat → OVStyle → OVStyle
  | [], _, s => s
  | _ :: rest, skip + 1, s => parseSGRLoop rest skip s
  | x :: rest, 0, s =>
    match toSGRCode x rest with
    | none => OVStyle.empty
    | some sgr =>
      match execSGRCode sgr s with
      | .abort => OVStyle.empty
      | .stop s2 => s2
      | .next s2 skip => parseSGRLoop rest skip s2

/-- `parseSGR` of `convert_es.go`: split the raw parameter string on
semicolons and run the loop starting from the empty delta. -/
def parseSGR (paramStr : List Char) : OVStyle :=
  parseSGRLoop (splitOnChar ';' paramStr) 0 OVStyle.empty

/-- The control-flow outcome of one `parseSGR` loop iteration, with the
style data erased: abort, stop, or continue after skipping `skip`
consumed outer parameters. -/
inductive SGRStepKind where
  | abort : SGRStepKind
  | stop : SGRStepKind
  | next : Nat → SGRStepKind
  deriving DecidableEq, Repr

/-- The control flow of `execSGRCode`, which does not depend on the
accumulated style: codes 38/48 abort on a color parse error, code 58
stops on one, and every step returns the consumed parameter count. -/
def execSGRKind (sgr : sgrParams) : SGRStepKind :=
  if sgr.code = 38 then
    match parseSGRColor sgr with
    | none => .abort
    | some (_, inc) => .next inc
  else if sgr.code = 48 then
    match parseSGRColor sgr with
    | none => .abort
    | some (_, inc) => .next inc
  else if sgr.code = 58 then
    match parseSGRColor sgr with
    | none => .stop
    | some (_, inc) => .next inc
  else .next 0

/-- The abort condition of the `parseSGR` loop, read off the same
recursion as `parseSGRLoop` with the style state erased: true exactly
when the loop reaches a parameter whose code position fails to parse
(`toSGRCode` error) or whose 38/48 extended-color arguments fail
(`parseSGRColor` error), the cases where the source returns `OVStyle{}`. -/
def parseSGRAborts : List (List Char) → Nat → Bool
  | [], _ => false
  | _ :: rest, skip + 1 => parseSGRAborts rest skip
  | x :: rest, 0 =>
    match toSGRCode x rest with
    | none => true
    | some sgr =>
      match execSGRKind sgr with
      | .abort => true
      | .stop => false
      | .next skip => parseSGRAborts rest skip

/-- An ordinary attribute parameter: all digits (hence colon-free) and
not one of the extended-color codes that consume further parameters. -/
def SimpleAttr (p : List Char) : Prop :=
  p.all Char.isDigit = true ∧ digitsToNat p ≠ 38 ∧ digitsToNat p ≠ 48 ∧
    digitsToNat p ≠ 58

instance (p : List Char) : Decidable (SimpleAttr p) := by
  unfold SimpleAttr
  infer_instance

/-- The head of the colon split of a parameter: the characters the code
position is parsed from. -/
def colonHead (p : List Char) : List Char := (splitOnChar ':' p).headD []

/-- The SGR cache (`sgrCache`, a `sync.Map` in `convert_es.go`) embedded
as an association list from raw parameter strings to parsed deltas. -/
abbrev SGRCache : Type := List (List Char × OVStyle)

/-- `sync.Map.Load` on the embedded cache. -/
def cacheLookup (k : List Char) : SGRCache → Option OVStyle
  | [] => none
  | (k2, v) :: rest => if k2 = k then some v else cacheLookup k rest

/-- `sgrStyle` of `convert_es.go` with its cache state made explicit:
`"0"`, `""` and `";"` reset to the default normal style; a cache hit
applies the cached delta; otherwise the delta is parsed, stored and
applied. -/
def sgrStyleC (cache : SGRCache) (style : TcellStyle) (paramStr : List Char) :
    TcellStyle × SGRCache :=
  if paramStr = ['0'] ∨ paramStr = [] ∨ paramStr = [';'] then
    (TcellStyle.defaultNormal, cache)
  else
    match cacheLookup paramStr cache with
    | some s => (applyStyle style s, cache)
    | none => (applyStyle style (parseSGR paramStr), (paramStr, parseSGR paramStr) :: cache)

/-- `sgrStyle` of `convert_es.go` with the cache erased: the pure
input/output behaviour (claim C9 relates it to `sgrStyleC`). -/
def sgrStyle (style : TcellStyle) (paramStr : List Char) : TcellStyle :=
  if paramStr = ['0'] ∨ paramStr = [] ∨ paramStr = [';'] then
    TcellStyle.defaultNormal
  else applyStyle style (parseSGR paramStr)

/-- A cache is coherent when every stored delta is the parse of its key.
Go inserts only `(p, parseSGR p)` pairs, so every reachable cache state
is coherent. -/
def CacheCoherent (cache : SGRCache) : Prop :=
  ∀ k v, (k, v) ∈ cache → v = parseSGR k

/-- The states of the ANSI escape code interpreter (`convert_es.go`). -/
inductive AnsiState where
  | ansiText
  | ansiEscape
  | ansiSubstring
  | ansiControlSequence
  | otherSequence
  | systemSequence
  | oscHyperLink
  | oscParameter
  | oscURL
  deriving DecidableEq, Repr

/-- `escapeSequence` of `convert_es.go`: the interpreter state with its
parameter and url string builders (builders embedded as rune lists in
write order). -/
structure EscapeSequence where
  parameter : List Char := []
  url : List Char := []
  state : AnsiState := .ansiText
  deriving DecidableEq, Repr

/-- `newESConverter` of `convert_es.go`. -/
def newESConverter : EscapeSequence := {}

/-- The fields of `parseState` read and written by `convert_es.go`: the
current rune, the running style and the end-of-line style. -/
structure ParseState where
  mainc : Char := ' '
  style : TcellStyle := {}
  eolStyle : TcellStyle := {}
  deriving DecidableEq, Repr

/-- `parseCSI` of `convert_es.go`: `'m'` applies SGR; `'K'` with an empty
or `"0"` parameter copies the current background into the end-of-line
style; `'A'..'T'` are ignored; bytes in the parameter range accumulate
and stay in the CSI state; everything else ends the sequence.  The
returned flag mirrors control flow only through the state field. -/
def parseCSI (es : EscapeSequence) (st : ParseState) (mainc : Char) :
    EscapeSequence × ParseState :=
  if mainc = 'm' then
    ({ es with state := .ansiText }, { st with style := sgrStyle st.style es.parameter })
  else if mainc = 'K' then
    if es.parameter = [] ∨ es.parameter = ['0'] then
      ({ es with state := .ansiText },
       { st with eolStyle := { st.eolStyle with bg := st.style.bg } })
    else ({ es with state := .ansiText }, st)
  else if 'A' ≤ mainc ∧ mainc ≤ 'T' then ({ es with state := .ansiText }, st)
  else if '\x20' ≤ mainc ∧ mainc ≤ '\x3f' then
    ({ es with parameter := es.parameter ++ [mainc] }, st)
  else ({ es with state := .ansiText }, st)

/-- `paraseEscapeSequence` of `convert_es.go` (source name kept): the
per-state transition function, entered for every rune that is not `0x1b`
or `'\n'`.  Returns whether the rune was consumed together with the new
converter and parse state. -/
def paraseEscapeSequence (es : EscapeSequence) (st : ParseState) :
    Bool × EscapeSequence × ParseState :=
  let mainc := st.mainc
  match es.state with
  | .ansiEscape =>
    if mainc = '[' then
      (true, { es with parameter := [], state := .ansiControlSequence }, st)
    else if mainc = 'c' then
      (true, { es with state := .ansiText }, { st with style := TcellStyle.styleDefault })
    else if mainc = ']' then (true, { es with state := .systemSequence }, st)
    else if mainc = 'P' ∨ mainc = 'X' ∨ mainc = '^' ∨ mainc = '_' then
      (true, { es with state := .ansiSubstring }, st)
    else if mainc = '(' then (true, { es with state := .otherSequence }, st)
    else (false, { es with state := .ansiText }, st)
  | .ansiSubstring =>
    if mainc = '\x1b' then (true, { es with state := .ansiControlSequence }, st)
    else (true, es, st)
  | .ansiControlSequence =>
    let (es2, st2) := parseCSI es st mainc
    (true, es2, st2)
  | .otherSequence => (true, { es with state := .ansiEscape }, st)
  | .systemSequence =>
    if mainc = '8' then (true, { es with state := .oscHyperLink }, st)
    else if mainc = '\\' then (true, { es with state := .ansiText }, st)
    else if mainc = '\x1b' then (true, { es with state := .ansiControlSequence }, st)
    else if mainc = '\x07' then (true, { es with state := .ansiText }, st)
    else (true, es, st)
  | .oscHyperLink =>
    if mainc = ';' then (true, { es with state := .oscParameter }, st)
    else (false, { es with state := .ansiText }, st)
  | .oscParameter =>
    if mainc ≠ ';' then (true, { es with parameter := es.parameter ++ [mainc] }, st)
    else
      let st2 := if es.parameter ≠ [] then
                   { st with style := { st.style with urlId := String.mk es.parameter } }
                 else st
      (true, { es with parameter := [], state := .oscURL }, st2)
  | .oscURL =>
    if mainc = '\x1b' then
      (true, { es with url := [], state := .systemSequence },
       { st with style := { st.style with url := String.mk es.url } })
    else if mainc = '\x07' then
      (true, { es with url := [], state := .ansiText },
       { st with style := { st.style with url := String.mk es.url } })
    else (true, { es with url := es.url ++ [mainc] }, st)
  | .ansiText => (false, es, st)

/-- `convert` of `convert_es.go`: `0x1b` always moves to the escape state
and is consumed; `'\n'` is never consumed and changes nothing; everything
else is dispatched on the current state. -/
def convert (es : EscapeSequence) (st : ParseState) :
    Bool × EscapeSequence × ParseState :=
  if st.mainc = '\x1b' then (true, { es with state := .ansiEscape }, st)
  else if st.mainc = '\n' then (false, es, st)
  else paraseEscapeSequence es st

/-- Modelled from the spec: the line-content builder (§4.C, not in the
sources) feeds each rune to the interpreter and, when the rune is not
consumed, emits a cell carrying the rune and the current style.  Only the
escape-handling part relevant to the claims is modelled (no tab or width
expansion). -/
def feedCells : EscapeSequence → ParseState → List Char →
    List (Char × TcellStyle) × EscapeSequence × ParseState
  | es, st, [] => ([], es, st)
  | es, st, c :: rest =>
    let r := convert es { st with mainc := c }
    let out := feedCells r.2.1 r.2.2 rest
    if r.1 then out else ((c, r.2.2.style) :: out.1, out.2)

/-- Run the line-content builder from the initial converter and style
state, returning the emitted cells with the final parse state. -/
def feedLine (l : List Char) : List (Char × TcellStyle) × EscapeSequence × ParseState :=
  feedCells newESConverter {} l

/-- Modelled from the spec: the section analyzer (§4.D, source not
available) walks logical lines in order keeping `(curSection, curNm)`:
a line matching the section delimiter regex increments the section and
restarts the intra-section counter at 1; any other line increments the
counter; lines before the first match carry section 0 with the counter
running from 1.  `matchF n` abstracts "line `n` matches the delimiter
regex". -/
def sectionState (matchF : Nat → Bool) : Nat → Nat × Nat
  | 0 => if matchF 0 then (1, 1) else (0, 1)
  | n + 1 =>
    let p := sectionState matchF n
    if matchF (n + 1) then (p.1 + 1, 1) else (p.1, p.2 + 1)

/-- Modelled from the spec: line `n` of `section2.txt` matches the
delimiter `"^-"` (the file itself is not available; the matching lines
1, 8, 15, 22 are fixed by the expected annotation of
`TestRoot_prepareDraw_sectionHeader2` in `prepare_draw_test.go`). -/
def section2Match (n : Nat) : Bool :=
  n == 1 || n == 8 || n == 15 || n == 22

/-- Modelled from the spec: the header row count of the viewport planner
(§4.F step 1, source not available): the sum of the display heights of
the `header` lines starting at `skip` (`heightOf n` is the wrapped height
of line `n`, constantly 1 without wrap). -/
def headerHeightModel (heightOf : Nat → Nat) (skip header : Nat) : Nat :=
  ((List.range header).map (fun i => heightOf (skip + i))).sum

/-- Modelled from the spec: `sectionHeaderLN` (§4.D, source not
available): the greatest line number at most `topLN` matching the
delimiter, or 0 when none does. -/
def sectionHeaderLNModel (matchF : Nat → Bool) : Nat → Nat
  | 0 => 0
  | n + 1 => if matchF (n + 1) then n + 1 else sectionHeaderLNModel matchF n

/-- Modelled from the spec: the section-header row count (§4.F step 2,
source not available): 0 when the delimiter regex matches no line of the
document (also the degraded state after a failed regex compile),
otherwise the summed display heights of the `shNum` lines from
`sectionHeaderLN`. -/
def sectionHeaderHeightModel (matchF : Nat → Bool) (docLen : Nat)
    (heightOf : Nat → Nat) (shNum topLN : Nat) : Nat :=
  if (List.range docLen).any matchF then
    ((List.range shNum).map (fun i => heightOf (sectionHeaderLNModel matchF topLN + i))).sum
  else 0

/-- Modelled from the spec: the rows available to the body under the
sticky headers (§4.F step 3, source not available). -/
def gotoAvailable (vHeight headerHeight sectionHeaderHeight jumpTargetHeight : Int) : Int :=
  vHeight - headerHeight - sectionHeaderHeight - jumpTargetHeight

/-- Modelled from the spec: the goto clamp of `prepareDraw` (§4.F step 3,
source not available), exactly as the spec words it: when the requested
`topLN` violates `topLN ≥ jumpTargetLN − available` it becomes
`max 0 (jumpTargetLN − available)`; `showGotoF` is cleared either way. -/
def gotoClampTopLN (vHeight headerHeight sectionHeaderHeight jumpTargetHeight
    jumpTargetLN topLN : Int) : Int × Bool :=
  let avail := gotoAvailable vHeight headerHeight sectionHeaderHeight jumpTargetHeight
  if topLN < jumpTargetLN - avail then (max 0 (jumpTargetLN - avail), false)
  else (topLN, false)

/-- Modelled from the spec: the frame quantities `prepareDraw` resolves
(§4.F steps 1-3, source not available): effective `topLN`, `headerHeight`
and `sectionHeaderHeight`, with the section-header feature active only
when `sectionHeaderOn`. -/
def frameModel (sectionHeaderOn : Bool) (matchF : Nat → Bool) (docLen : Nat)
    (heightOf : Nat → Nat) (skip header shNum : Nat)
    (vHeight jumpTargetHeight : Int) (showGotoF : Bool)
    (jumpTargetLN : Int) (topLN : Nat) : Int × Nat × Nat :=
  let hH := headerHeightModel heightOf skip header
  let shh := if sectionHeaderOn then
               sectionHeaderHeightModel matchF docLen heightOf shNum topLN
             else 0
  let t := if showGotoF then
             (gotoClampTopLN vHeight hH shh jumpTargetHeight jumpTargetLN topLN).1
           else (topLN : Int)
  (t, hH, shh)

/-! ### Helper lemmas -/

theorem applyStyle_empty (t : TcellStyle) : applyStyle t OVStyle.empty = t := rfl

theorem splitOnChar_ne_nil (c : Char) (l : List Char) : splitOnChar c l ≠ [] := by
  cases l with
  | nil => simp [splitOnChar]
  | cons x xs =>
    simp only [splitOnChar]
    split
    · simp
    · split <;> simp

theorem splitOnChar_not_mem {c : Char} {l : List Char} (h : c ∉ l) :
    splitOnChar c l = [l] := by
  induction l with
  | nil => rfl
  | cons x xs ih =>
    simp only [List.mem_cons, not_or] at h
    have hx : x ≠ c := fun hx => h.1 hx.symm
    simp [splitOnChar, hx, ih h.2]

theorem not_colon_mem_of_all_digits {p : List Char}
    (h : p.all Char.isDigit = true) : ':' ∉ p := by
  intro hmem
  have := List.all_eq_true.mp h ':' hmem
  simp [Char.isDigit] at this

theorem containsNonDigit_eq_false_of_all {p : List Char}
    (h : p.all Char.isDigit = true) : containsNonDigit p = false := by
  simp only [containsNonDigit, List.any_eq_false]
  intro c hc
  simp [List.all_eq_true.mp h c hc]

theorem sgrNumber_of_all_digits {p : List Char} (h : p.all Char.isDigit = true) :
    sgrNumber p = some (digitsToNat p) := by
  by_cases hp : p = []
  · subst hp; rfl
  · simp [sgrNumber, hp, containsNonDigit_eq_false_of_all h]

theorem sgrNumber_of_containsNonDigit {p : List Char}
    (h : containsNonDigit p = true) : sgrNumber p = none := by
  have hp : p ≠ [] := by
    rintro rfl
    simp [containsNonDigit] at h
  simp [sgrNumber, hp, h]

theorem toSGRCode_simple {p : List Char} (rest : List (List Char))
    (h : SimpleAttr p) :
    toSGRCode p rest = some { code := digitsToNat p } := by
  obtain ⟨hd, h38, h48, h58⟩ := h
  have hsplit : splitOnChar ':' p = [p] := splitOnChar_not_mem (not_colon_mem_of_all_digits hd)
  simp [toSGRCode, hsplit, sgrNumber_of_all_digits hd, h38, h48, h58]

theorem execSGRCode_simple (code : Nat) (s : OVStyle)
    (h38 : code ≠ 38) (h48 : code ≠ 48) (h58 : code ≠ 58) :
    ∃ s2, execSGRCode { code := code } s = .next s2 0 := by
  by_cases h4 : code = 4
  · exact ⟨{ s with Underline := true, UnUnderline := false },
      by simp [execSGRCode, h38, h48, h58, h4]⟩
  · exact ⟨applySimpleCode code s, by simp [execSGRCode, h38, h48, h58, h4]⟩

theorem toSGRCode_none_of_bad {p : List Char} (rest : List (List Char))
    (h : containsNonDigit (colonHead p) = true) : toSGRCode p rest = none := by
  obtain ⟨h0, t, heq⟩ := List.exists_cons_of_ne_nil (splitOnChar_ne_nil ':' p)
  have hh : colonHead p = h0 := by simp [colonHead, heq]
  rw [hh] at h
  simp [toSGRCode, heq, sgrNumber_of_containsNonDigit h]

theorem parseSGRLoop_abort {bad : List Char} {post : List (List Char)}
    (hbad : containsNonDigit (colonHead bad) = true) :
    ∀ (pre : List (List Char)) (s : OVStyle), (∀ p ∈ pre, SimpleAttr p) →
      parseSGRLoop (pre ++ bad :: post) 0 s = OVStyle.empty := by
  intro pre
  induction pre with
  | nil =>
    intro s _
    simp [parseSGRLoop, toSGRCode_none_of_bad post hbad]
  | cons p pre ih =>
    intro s hpre
    have hp := hpre p (List.mem_cons_self p pre)
    obtain ⟨s2, hs2⟩ := execSGRCode_simple (digitsToNat p) s hp.2.1 hp.2.2.1 hp.2.2.2
    simp only [List.cons_append, parseSGRLoop, List.append_eq]
    rw [toSGRCode_simple (pre ++ bad :: post) hp]
    simp only [hs2]
    exact ih s2 (fun q hq => hpre q (List.mem_cons_of_mem p hq))

theorem ne_nil_of_containsNonDigit {p : List Char}
    (h : containsNonDigit p = true) : p ≠ [] := by
  rintro rfl
  simp [containsNonDigit] at h

theorem parse256Color_none {bad : List Char}
    (h : containsNonDigit bad = true) : parse256Color bad = none := by
  simp [parse256Color, ne_nil_of_containsNonDigit h,
    sgrNumber_of_containsNonDigit h]

theorem parseRGBColor_none {r g b : List Char}
    (hr : r ≠ []) (hg : g ≠ []) (hb : b ≠ [])
    (hbad : containsNonDigit r = true ∨ containsNonDigit g = true ∨
      containsNonDigit b = true) :
    parseRGBColor r g b = none := by
  unfold parseRGBColor
  rw [if_neg (by simp [hr, hg, hb])]
  cases h1 : sgrNumber r with
  | none => rfl
  | some nr =>
    cases h2 : sgrNumber g with
    | none => rfl
    | some ng =>
      cases h3 : sgrNumber b with
      | none => rfl
      | some nb =>
        exfalso
        rcases hbad with hc | hc | hc
        · rw [sgrNumber_of_containsNonDigit hc] at h1
          exact Option.noConfusion h1
        · rw [sgrNumber_of_containsNonDigit hc] at h2
          exact Option.noConfusion h2
        · rw [sgrNumber_of_containsNonDigit hc] at h3
          exact Option.noConfusion h3

theorem execSGRCode_other (sgr : sgrParams) (s : OVStyle)
    (h38 : sgr.code ≠ 38) (h48 : sgr.code ≠ 48) (h58 : sgr.code ≠ 58) :
    ∃ s2, execSGRCode sgr s = .next s2 0 := by
  unfold execSGRCode
  rw [if_neg h38, if_neg h48, if_neg h58]
  by_cases h4 : sgr.code = 4
  · rw [if_pos h4]
    cases hp : sgr.params with
    | nil => exact ⟨_, rfl⟩
    | cons p0 t =>
      by_cases hp0 : p0 = []
      · exact ⟨{ s with Underline := true, UnUnderline := false }, by simp [hp0]⟩
      · exact ⟨underLineStyle s p0, by simp [hp0]⟩
  · rw [if_neg h4]
    exact ⟨_, rfl⟩

theorem parseSGRLoop_eq_none {x : List Char} {rest : List (List Char)}
    (s : OVStyle) (ht : toSGRCode x rest = none) :
    parseSGRLoop (x :: rest) 0 s = OVStyle.empty := by
  simp [parseSGRLoop, ht]

theorem parseSGRLoop_eq_next {x : List Char} {rest : List (List Char)}
    {sgr : sgrParams} (s s2 : OVStyle) (k : Nat)
    (ht : toSGRCode x rest = some sgr) (hn : execSGRCode sgr s = .next s2 k) :
    parseSGRLoop (x :: rest) 0 s = parseSGRLoop rest k s2 := by
  simp [parseSGRLoop, ht, hn]

theorem parseSGRLoop_ext_abort {x : List Char} {rest : List (List Char)}
    {sgr : sgrParams} (s : OVStyle) (ht : toSGRCode x rest = some sgr)
    (ha : execSGRCode sgr s = .abort) :
    parseSGRLoop (x :: rest) 0 s = OVStyle.empty := by
  simp [parseSGRLoop, ht, ha]

theorem parseSGRAborts_eq_stop {x : List Char} {rest : List (List Char)}
    {sgr : sgrParams} (ht : toSGRCode x rest = some sgr)
    (hk : execSGRKind sgr = .stop) :
    parseSGRAborts (x :: rest) 0 = false := by
  simp [parseSGRAborts, ht, hk]

theorem parseSGRAborts_eq_next {x : List Char} {rest : List (List Char)}
    {sgr : sgrParams} (k : Nat) (ht : toSGRCode x rest = some sgr)
    (hk : execSGRKind sgr = .next k) :
    parseSGRAborts (x :: rest) 0 = parseSGRAborts rest k := by
  simp [parseSGRAborts, ht, hk]

theorem execSGRKind_abort {sgr : sgrParams} (s : OVStyle)
    (h : execSGRKind sgr = .abort) : execSGRCode sgr s = .abort := by
  by_cases h38 : sgr.code = 38
  · simp only [execSGRKind, if_pos h38] at h
    simp only [execSGRCode, if_pos h38]
    cases hp : parseSGRColor sgr with
    | none => rfl
    | some v =>
      obtain ⟨c, i⟩ := v
      rw [hp] at h
      simp at h
  · by_cases h48 : sgr.code = 48
    · simp only [execSGRKind, if_neg h38, if_pos h48] at h
      simp only [execSGRCode, if_neg h38, if_pos h48]
      cases hp : parseSGRColor sgr with
      | none => rfl
      | some v =>
        obtain ⟨c, i⟩ := v
        rw [hp] at h
        simp at h
    · by_cases h58 : sgr.code = 58
      · simp only [execSGRKind, if_neg h38, if_neg h48, if_pos h58] at h
        cases hp : parseSGRColor sgr with
        | none => rw [hp] at h; simp at h
        | some v =>
          obtain ⟨c, i⟩ := v
          rw [hp] at h
          simp at h
      · simp [execSGRKind, h38, h48, h58] at h

theorem execSGRKind_stop {sgr : sgrParams} (s : OVStyle)
    (h : execSGRKind sgr = .stop) : execSGRCode sgr s = .stop s := by
  by_cases h38 : sgr.code = 38
  · simp only [execSGRKind, if_pos h38] at h
    cases hp : parseSGRColor sgr with
    | none => rw [hp] at h; simp at h
    | some v =>
      obtain ⟨c, i⟩ := v
      rw [hp] at h
      simp at h
  · by_cases h48 : sgr.code = 48
    · simp only [execSGRKind, if_neg h38, if_pos h48] at h
      cases hp : parseSGRColor sgr with
      | none => rw [hp] at h; simp at h
      | some v =>
        obtain ⟨c, i⟩ := v
        rw [hp] at h
        simp at h
    · by_cases h58 : sgr.code = 58
      · simp only [execSGRKind, if_neg h38, if_neg h48, if_pos h58] at h
        simp only [execSGRCode, if_neg h38, if_neg h48, if_pos h58]
        cases hp : parseSGRColor sgr with
        | none => rfl
        | some v =>
          obtain ⟨c, i⟩ := v
          rw [hp] at h
          simp at h
      · simp [execSGRKind, h38, h48, h58] at h

theorem execSGRKind_next {sgr : sgrParams} (s : OVStyle) {k : Nat}
    (h : execSGRKind sgr = .next k) : ∃ s2, execSGRCode sgr s = .next s2 k := by
  by_cases h38 : sgr.code = 38
  · simp only [execSGRKind, if_pos h38] at h
    simp only [execSGRCode, if_pos h38]
    cases hp : parseSGRColor sgr with
    | none => rw [hp] at h; simp at h
    | some v =>
      obtain ⟨c, i⟩ := v
      rw [hp] at h
      simp only [SGRStepKind.next.injEq] at h
      subst h
      exact ⟨_, rfl⟩
  · by_cases h48 : sgr.code = 48
    · simp only [execSGRKind, if_neg h38, if_pos h48] at h
      simp only [execSGRCode, if_neg h38, if_pos h48]
      cases hp : parseSGRColor sgr with
      | none => rw [hp] at h; simp at h
      | some v =>
        obtain ⟨c, i⟩ := v
        rw [hp] at h
        simp only [SGRStepKind.next.injEq] at h
        subst h
        exact ⟨_, rfl⟩
    · by_cases h58 : sgr.code = 58
      · simp only [execSGRKind, if_neg h38, if_neg h48, if_pos h58] at h
        simp only [execSGRCode, if_neg h38, if_neg h48, if_pos h58]
        cases hp : parseSGRColor sgr with
        | none => rw [hp] at h; simp at h
        | some v =>
          obtain ⟨c, i⟩ := v
          rw [hp] at h
          simp only [SGRStepKind.next.injEq] at h
          subst h
          exact ⟨_, rfl⟩
      · simp only [execSGRKind, if_neg h38, if_neg h48, if_neg h58,
          SGRStepKind.next.injEq] at h
        subst h
        exact execSGRCode_other sgr s h38 h48 h58

theorem parseSGRLoop_of_aborts :
    ∀ (l : List (List Char)) (skip : Nat) (s : OVStyle),
      parseSGRAborts l skip = true → parseSGRLoop l skip s = OVStyle.empty := by
  intro l
  induction l with
  | nil =>
    intro skip s h
    simp [parseSGRAborts] at h
  | cons x rest ih =>
    intro skip s h
    cases skip with
    | succ k =>
      simp only [parseSGRAborts] at h
      simp only [parseSGRLoop]
      exact ih k s h
    | zero =>
      cases ht : toSGRCode x rest with
      | none => exact parseSGRLoop_eq_none s ht
      | some sgr =>
        cases hk : execSGRKind sgr with
        | abort => exact parseSGRLoop_ext_abort s ht (execSGRKind_abort s hk)
        | stop =>
          rw [parseSGRAborts_eq_stop ht hk] at h
          exact Bool.noConfusion h
        | next k =>
          rw [parseSGRAborts_eq_next k ht hk] at h
          obtain ⟨s2, hs2⟩ := execSGRKind_next s hk
          rw [parseSGRLoop_eq_next s s2 k ht hs2]
          exact ih k s2 h

theorem parseSGRLoop_simple_prefix :
    ∀ (pre suffix : List (List Char)) (s : OVStyle),
      (∀ p ∈ pre, SimpleAttr p) →
      ∃ s2, parseSGRLoop (pre ++ suffix) 0 s = parseSGRLoop suffix 0 s2 := by
  intro pre
  induction pre with
  | nil =>
    intro suffix s _
    exact ⟨s, rfl⟩
  | cons p pre ih =>
    intro suffix s hpre
    have hp := hpre p (List.mem_cons_self p pre)
    obtain ⟨s2, hs2⟩ := execSGRCode_simple (digitsToNat p) s hp.2.1 hp.2.2.1 hp.2.2.2
    simp only [List.cons_append, parseSGRLoop, List.append_eq]
    rw [toSGRCode_simple (pre ++ suffix) hp]
    simp only [hs2]
    exact ih suffix s2 (fun q hq => hpre q (List.mem_cons_of_mem p hq))

theorem execSGRCode_abort_of_color_none {sgr : sgrParams} (s : OVStyle)
    (hc : sgr.code = 38 ∨ sgr.code = 48) (hp : parseSGRColor sgr = none) :
    execSGRCode sgr s = .abort := by
  rcases hc with h | h <;> simp [execSGRCode, h, hp]

theorem toSGRCode_38 (rest : List (List Char)) :
    toSGRCode ['3', '8'] rest
      = some { code := 38, params := rest, colonF := false } := by
  simp [toSGRCode, show splitOnChar ':' ['3', '8'] = [['3', '8']] from by decide,
    show sgrNumber ['3', '8'] = some 38 from by decide]

theorem toSGRCode_48 (rest : List (List Char)) :
    toSGRCode ['4', '8'] rest
      = some { code := 48, params := rest, colonF := false } := by
  simp [toSGRCode, show splitOnChar ':' ['4', '8'] = [['4', '8']] from by decide,
    show sgrNumber ['4', '8'] = some 48 from by decide]

theorem parseSGRColor_palette_none {c : Nat} {bad : List Char}
    {post : List (List Char)} (hbad : containsNonDigit bad = true) :
    parseSGRColor { code := c, params := ['5'] :: bad :: post, colonF := false }
      = none := by
  simp [parseSGRColor, convertSGRColor,
    show sgrNumber ['5'] = some 5 from by decide, parse256Color_none hbad]

theorem parseSGRColor_rgb_none {c : Nat} {r g b : List Char}
    {post : List (List Char)} (hr : r ≠ []) (hg : g ≠ []) (hb : b ≠ [])
    (hbad : containsNonDigit r = true ∨ containsNonDigit g = true ∨
      containsNonDigit b = true) :
    parseSGRColor { code := c, params := ['2'] :: r :: g :: b :: post, colonF := false }
      = none := by
  simp [parseSGRColor, convertSGRColor,
    show sgrNumber ['2'] = some 2 from by decide,
    parseRGBColor_none hr hg hb hbad]

theorem sectionState_all_false {f : Nat → Bool} :
    ∀ n, (∀ k, k ≤ n → f k = false) → sectionState f n = (0, n + 1) := by
  intro n
  induction n with
  | zero => intro h; simp [sectionState, h 0 (le_refl 0)]
  | succ n ih =>
    intro h
    have hn := ih (fun k hk => h k (Nat.le_succ_of_le hk))
    simp [sectionState, hn, h (n + 1) (le_refl (n + 1))]

theorem cacheLookup_mem {k : List Char} {v : OVStyle} :
    ∀ {cache : SGRCache}, cacheLookup k cache = some v → (k, v) ∈ cache := by
  intro cache
  induction cache with
  | nil => intro h; simp [cacheLookup] at h
  | cons kv rest ih =>
    intro h
    obtain ⟨k2, v2⟩ := kv
    by_cases he : k2 = k
    · subst he
      have hv : v2 = v := by simpa [cacheLookup] using h
      subst hv
      exact List.mem_cons_self _ _
    · simp only [cacheLookup, if_neg he] at h
      exact List.mem_cons_of_mem _ (ih h)

theorem sgrStyleC_fst_of_coherent (cache : SGRCache) (style : TcellStyle)
    (p : List Char) (h : CacheCoherent cache) :
    (sgrStyleC cache style p).1 = sgrStyle style p := by
  by_cases ht : p = ['0'] ∨ p = [] ∨ p = [';']
  · simp [sgrStyleC, sgrStyle, ht]
  · simp only [sgrStyleC, sgrStyle, if_neg ht]
    cases hl : cacheLookup p cache with
    | none => simp [hl]
    | some d =>
      have hd := h p d (cacheLookup_mem hl)
      simp [hl, hd]

theorem sgrStyleC_snd_coherent (cache : SGRCache) (style : TcellStyle)
    (p : List Char) (h : CacheCoherent cache) :
    CacheCoherent (sgrStyleC cache style p).2 := by
  by_cases ht : p = ['0'] ∨ p = [] ∨ p = [';']
  · simpa [sgrStyleC, ht] using h
  · simp only [sgrStyleC, if_neg ht]
    cases hl : cacheLookup p cache with
    | some d => simpa [hl] using h
    | none =>
      simp only [hl]
      intro k v hmem
      rcases List.mem_cons.mp hmem with heq | hmem2
      · rw [Prod.ext_iff] at heq
        obtain ⟨h1, h2⟩ := heq
        subst h1
        exact h2
      · exact h k v hmem2

theorem coherent_insert (cache : SGRCache) (p : List Char)
    (h : CacheCoherent cache) : CacheCoherent ((p, parseSGR p) :: cache) := by
  intro k v hmem
  rcases List.mem_cons.mp hmem with heq | hmem2
  · rw [Prod.ext_iff] at heq
    obtain ⟨h1, h2⟩ := heq
    subst h1
    exact h2
  · exact h k v hmem2

/-! ### Claim theorems -/

/-- C1 (corrected): the goto clamp of `prepareDraw`, as the spec words
it: with `available = vHeight − headerHeight − sectionHeaderHeight −
jumpTargetHeight`, a requested `topLN` below `jumpTargetLN − available`
becomes `max 0 (jumpTargetLN − available)` and `showGotoF` is cleared;
otherwise `topLN` is unchanged and `showGotoF` is still cleared.  Under
S1's settings (`available = 14`) the formula leaves a requested `topLN`
of 10 at 10 and of 2 at 2 (with the jump target at the requested line). -/
theorem gotoClampTopLN_spec :
    (∀ vH hH sH jH J t : Int,
        t < J - gotoAvailable vH hH sH jH →
        gotoClampTopLN vH hH sH jH J t
          = (max 0 (J - gotoAvailable vH hH sH jH), false)) ∧
    (∀ vH hH sH jH J t : Int,
        ¬ t < J - gotoAvailable vH hH sH jH →
        gotoClampTopLN vH hH sH jH J t = (t, false)) ∧
    gotoClampTopLN 24 5 5 0 10 10 = (10, false) ∧
    gotoClampTopLN 24 5 5 0 2 2 = (2, false) := by
  refine ⟨?_, ?_, by decide, by decide⟩
  · intro vH hH sH jH J t h
    simp [gotoClampTopLN, h]
  · intro vH hH sH jH J t h
    simp [gotoClampTopLN, h]

/-- C1 witness: at `vHeight 24`, heights 5/5/0, jump target 25 and
requested top 10 the clamp condition holds and fires. -/
theorem gotoClampTopLN_spec_witness :
    gotoClampTopLN 24 5 5 0 25 10 = (max 0 (25 - gotoAvailable 24 5 5 0), false) :=
  gotoClampTopLN_spec.1 24 5 5 0 25 10 (by decide)

/-- C1 counterexample: under S1's heights (`headerHeight = 5`,
`sectionHeaderHeight = 5`, `jumpTargetHeight = 0`, `vHeight = 24`, so
`available = 14`) the spec's formula never turns a requested `topLN` of
10 into 5 or a requested 2 into 0: when the clamp does not fire the
request is kept (10 and 2), and when it fires the result exceeds the
request (J = 25 gives 11, J = 17 gives 3); J = 19 and J = 14 are the only
jump targets whose clamp values are 5 resp. 0, and neither fires. -/
theorem gotoClampTopLN_S1_counterexample :
    (gotoClampTopLN 24 5 5 0 10 10).1 = 10 ∧
    (gotoClampTopLN 24 5 5 0 19 10).1 = 10 ∧
    (gotoClampTopLN 24 5 5 0 25 10).1 = 11 ∧
    (gotoClampTopLN 24 5 5 0 2 2).1 = 2 ∧
    (gotoClampTopLN 24 5 5 0 14 2).1 = 2 ∧
    (gotoClampTopLN 24 5 5 0 17 2).1 = 3 := by decide

/-- C2: the section analyzer's tagging invariant: `section` increments at
every line matching the delimiter and `sectionNm` restarts at 1 there,
`sectionNm` increments on non-matching lines, lines before the first
match carry `(0, n)` with `n` from 1; and for `section2.txt` (delimiter
`"^-"` matching lines 1, 8, 15, 22) the 24 visible lines carry exactly
the annotation `(0)0-01 (1)1-01 (2)1-02 … (8)2-01 … (15)3-01 … (22)4-01
(23)4-02` expected by `TestRoot_prepareDraw_sectionHeader2`. -/
theorem sectionState_invariant_and_section2 :
    (∀ (f : Nat → Bool) (n : Nat), f (n + 1) = true →
        sectionState f (n + 1) = ((sectionState f n).1 + 1, 1)) ∧
    (∀ (f : Nat → Bool) (n : Nat), f (n + 1) = false →
        sectionState f (n + 1) = ((sectionState f n).1, (sectionState f n).2 + 1)) ∧
    (∀ (f : Nat → Bool) (n : Nat), (∀ k, k ≤ n → f k = false) →
        sectionState f n = (0, n + 1)) ∧
    (List.range 24).map (fun n => (n, sectionState section2Match n)) =
      [(0,(0,1)), (1,(1,1)), (2,(1,2)), (3,(1,3)), (4,(1,4)), (5,(1,5)),
       (6,(1,6)), (7,(1,7)), (8,(2,1)), (9,(2,2)), (10,(2,3)), (11,(2,4)),
       (12,(2,5)), (13,(2,6)), (14,(2,7)), (15,(3,1)), (16,(3,2)),
       (17,(3,3)), (18,(3,4)), (19,(3,5)), (20,(3,6)), (21,(3,7)),
       (22,(4,1)), (23,(4,2))] := by
  refine ⟨?_, ?_, ?_, by decide⟩
  · intro f n h
    simp [sectionState, h]
  · intro f n h
    simp [sectionState, h]
  · exact fun f => sectionState_all_false

/-- C2 witness: line 1 of `section2.txt` matches, so its tag increments
the section of line 0 and restarts the counter. -/
theorem sectionState_invariant_witness :
    sectionState section2Match 1 = ((sectionState section2Match 0).1 + 1, 1) :=
  sectionState_invariant_and_section2.1 section2Match 0 (by decide)

/-- C3 (amended): whenever the SGR parse reaches a non-digit where a
digit is expected — in a parameter's code position, whatever parameters
(including consumed extended-color arguments) precede it, or in the
extended-color arguments of codes 38/48 in either the palette (`5;n`) or
RGB (`2;r;g;b`) form — the whole parse yields the empty delta, whatever
delta had accumulated; applying the empty delta changes no attribute and
no color, so the style carried into the following cells is the style in
effect before the sequence, and processing of the rest of the line
continues (the cell after the bad sequence is still emitted, with the
unchanged style).  Exception, forced by the counterexample: a non-digit
among the color arguments of code 58 ends the parse with the delta
accumulated so far.  The first conjunct is the general statement:
`parseSGRAborts` reads the abort condition (a `toSGRCode` or 38/48
`parseSGRColor` error is reached) off the loop with the style state
erased, and wherever it holds the loop discards everything; the later
conjuncts instantiate it syntactically, and `"38;5;2;?"` exercises a bad
code position behind consumed color arguments. -/
theorem parseSGR_error_empty_delta :
    (∀ (l : List (List Char)) (skip : Nat) (s : OVStyle),
        parseSGRAborts l skip = true → parseSGRLoop l skip s = OVStyle.empty) ∧
    (∀ (pre post : List (List Char)) (bad : List Char) (s : OVStyle),
        (∀ p ∈ pre, SimpleAttr p) → containsNonDigit (colonHead bad) = true →
        parseSGRLoop (pre ++ bad :: post) 0 s = OVStyle.empty) ∧
    (∀ (pre post : List (List Char)) (bad : List Char) (s : OVStyle),
        (∀ p ∈ pre, SimpleAttr p) → containsNonDigit bad = true →
        parseSGRLoop (pre ++ "38".toList :: "5".toList :: bad :: post) 0 s
          = OVStyle.empty ∧
        parseSGRLoop (pre ++ "48".toList :: "5".toList :: bad :: post) 0 s
          = OVStyle.empty) ∧
    (∀ (pre post : List (List Char)) (r g b : List Char) (s : OVStyle),
        (∀ p ∈ pre, SimpleAttr p) → r ≠ [] → g ≠ [] → b ≠ [] →
        (containsNonDigit r = true ∨ containsNonDigit g = true ∨
          containsNonDigit b = true) →
        parseSGRLoop (pre ++ "38".toList :: "2".toList :: r :: g :: b :: post) 0 s
          = OVStyle.empty ∧
        parseSGRLoop (pre ++ "48".toList :: "2".toList :: r :: g :: b :: post) 0 s
          = OVStyle.empty) ∧
    parseSGR "38;5;2;?".toList = OVStyle.empty ∧
    (∀ style : TcellStyle, applyStyle style OVStyle.empty = style) ∧
    (∀ style : TcellStyle, sgrStyle style "1;?".toList = style) ∧
    (feedLine "\x1b[1;?mZ".toList).1 = [('Z', TcellStyle.styleDefault)] := by
  refine ⟨parseSGRLoop_of_aborts, ?_, ?_, ?_, by decide, applyStyle_empty, ?_,
    by decide⟩
  · intro pre post bad s hpre hbad
    exact parseSGRLoop_abort hbad pre s hpre
  · intro pre post bad s hpre hbad
    constructor
    · show parseSGRLoop (pre ++ ['3', '8'] :: ['5'] :: bad :: post) 0 s
        = OVStyle.empty
      obtain ⟨s2, hs2⟩ :=
        parseSGRLoop_simple_prefix pre (['3', '8'] :: ['5'] :: bad :: post) s hpre
      rw [hs2]
      exact parseSGRLoop_ext_abort s2 (toSGRCode_38 _)
        (execSGRCode_abort_of_color_none s2 (Or.inl rfl)
          (parseSGRColor_palette_none hbad))
    · show parseSGRLoop (pre ++ ['4', '8'] :: ['5'] :: bad :: post) 0 s
        = OVStyle.empty
      obtain ⟨s2, hs2⟩ :=
        parseSGRLoop_simple_prefix pre (['4', '8'] :: ['5'] :: bad :: post) s hpre
      rw [hs2]
      exact parseSGRLoop_ext_abort s2 (toSGRCode_48 _)
        (execSGRCode_abort_of_color_none s2 (Or.inr rfl)
          (parseSGRColor_palette_none hbad))
  · intro pre post r g b s hpre hr hg hb hbad
    constructor
    · show parseSGRLoop (pre ++ ['3', '8'] :: ['2'] :: r :: g :: b :: post) 0 s
        = OVStyle.empty
      obtain ⟨s2, hs2⟩ := parseSGRLoop_simple_prefix pre
        (['3', '8'] :: ['2'] :: r :: g :: b :: post) s hpre
      rw [hs2]
      exact parseSGRLoop_ext_abort s2 (toSGRCode_38 _)
        (execSGRCode_abort_of_color_none s2 (Or.inl rfl)
          (parseSGRColor_rgb_none hr hg hb hbad))
    · show parseSGRLoop (pre ++ ['4', '8'] :: ['2'] :: r :: g :: b :: post) 0 s
        = OVStyle.empty
      obtain ⟨s2, hs2⟩ := parseSGRLoop_simple_prefix pre
        (['4', '8'] :: ['2'] :: r :: g :: b :: post) s hpre
      rw [hs2]
      exact parseSGRLoop_ext_abort s2 (toSGRCode_48 _)
        (execSGRCode_abort_of_color_none s2 (Or.inr rfl)
          (parseSGRColor_rgb_none hr hg hb hbad))
  · intro style
    unfold sgrStyle
    rw [if_neg (by decide)]
    rw [show parseSGR "1;?".toList = OVStyle.empty from by decide]
    exact applyStyle_empty style

/-- C3 witness: the parameters `38;5;2;?` reach the abort condition (the
bad code position sits behind the two consumed palette arguments), and
the loop discards an already-accumulated bold delta. -/
theorem parseSGR_error_empty_delta_witness :
    parseSGRLoop [['3', '8'], ['5'], ['2'], ['?']] 0 { Bold := true }
      = OVStyle.empty :=
  parseSGR_error_empty_delta.1 [['3', '8'], ['5'], ['2'], ['?']] 0
    { Bold := true } (by decide)

/-- C3 counterexample: in `"1;58;5;?"` the palette index of code 58 holds
a non-digit where a digit is expected, yet the parse does not yield an
empty delta: it returns the partial delta with bold set (`case 58`
returns the accumulated `s` on a color parse error), and applying the
sequence does change the bold attribute of the following cells. -/
theorem parseSGR_58_partial_delta_counterexample :
    parseSGR "1;58;5;?".toList = { Bold := true } ∧
    parseSGR "1;58;5;?".toList ≠ OVStyle.empty ∧
    applyStyle TcellStyle.styleDefault (parseSGR "1;58;5;?".toList)
      ≠ TcellStyle.styleDefault ∧
    (feedLine "\x1b[1;58;5;?mZ".toList).1
      = [('Z', { TcellStyle.styleDefault with bold := true })] := by decide

/-- C4: evaluation at the failing input: for the OSC-8 hyperlink
`ESC ] 8 ; ; ab` terminated by `ESC \`, the code never stores the
collected URL (the `0x1b` is intercepted by `convert` before the `oscURL`
handler can run, leaving the collected runes in the builder) and the
terminating backslash is emitted as a visible cell; with the `0x07`
terminator the URL and a preceding non-empty parameter are stored and no
cell is produced, as the claim states. -/
theorem oscURL_esc_terminator_diverges :
    (feedLine "\x1b]8;;ab\x1b\\".toList).1 = [('\\', TcellStyle.styleDefault)] ∧
    (feedLine "\x1b]8;;ab\x1b\\".toList).2.2.style.url = "" ∧
    (feedLine "\x1b]8;;ab\x1b\\".toList).2.1.url = "ab".toList ∧
    (feedLine "\x1b]8;id;ab\x07".toList).1 = [] ∧
    (feedLine "\x1b]8;id;ab\x07".toList).2.2.style.url = "ab" ∧
    (feedLine "\x1b]8;id;ab\x07".toList).2.2.style.urlId = "id" := by decide

/-- C5: for an SGR element written in the colon form `38:5:n`, the
extended-color parameters are the colon-split tail of that same element
and the outer parameter index does not advance past it (the loop
continues with the untouched remaining outer parameters); feeding
`ESC [38:5:82m X` through the interpreter produces exactly one cell `X`
whose foreground is the tcell name of palette entry 82. -/
theorem sgr_colon_form_no_advance :
    (∀ (ds : List Char) (rest : List (List Char)) (s : OVStyle),
        ds.all Char.isDigit = true → ds ≠ [] → digitsToNat ds ≤ 255 →
        parseSGRLoop (('3' :: '8' :: ':' :: '5' :: ':' :: ds) :: rest) 0 s
          = parseSGRLoop rest 0
              { s with Foreground := tcellPaletteColor (digitsToNat ds) }) ∧
    (feedLine "\x1b[38:5:82mX".toList).1
      = [('X', { TcellStyle.styleDefault with fg := tcellPaletteColor 82 })] := by
  refine ⟨?_, by decide⟩
  intro ds rest s hd hne h255
  have hsplit : splitOnChar ':' ('3' :: '8' :: ':' :: '5' :: ':' :: ds)
      = [['3', '8'], ['5'], ds] := by
    simp [splitOnChar, splitOnChar_not_mem (not_colon_mem_of_all_digits hd)]
  have hcode : toSGRCode ('3' :: '8' :: ':' :: '5' :: ':' :: ds) rest
      = some { code := 38, params := [['5'], ds], colonF := true } := by
    simp [toSGRCode, hsplit, show sgrNumber ['3', '8'] = some 38 from by decide]
  have hcolor : parse256Color ds = some (tcellPaletteColor (digitsToNat ds)) := by
    simp [parse256Color, hne, sgrNumber_of_all_digits hd, colorName,
      Nat.not_lt.mpr h255]
  have hexec : execSGRCode { code := 38, params := [['5'], ds], colonF := true } s
      = .next { s with Foreground := tcellPaletteColor (digitsToNat ds) } 0 := by
    simp [execSGRCode, parseSGRColor, convertSGRColor,
      show sgrNumber ['5'] = some 5 from by decide, hcolor]
  simp only [parseSGRLoop]
  rw [hcode]
  simp only [hexec]

/-- C5 witness: the colon element `38:5:82` followed by no further
parameters sets palette entry 82 and leaves nothing consumed. -/
theorem sgr_colon_form_no_advance_witness :
    parseSGRLoop [('3' :: '8' :: ':' :: '5' :: ':' :: ['8', '2'])] 0 OVStyle.empty
      = parseSGRLoop [] 0
          { OVStyle.empty with
              Foreground := tcellPaletteColor (digitsToNat ['8', '2']) } :=
  sgr_colon_form_no_advance.1 ['8', '2'] [] OVStyle.empty (by decide) (by decide)
    (by decide)

/-- C6: a CSI final byte `K` with an empty or `"0"` parameter copies only
the current background into the end-of-line style, leaving the current
style and the rest of the end-of-line style unchanged; a `K` with any
other parameter changes nothing; the cursor-movement finals `A..T`
(other than `K`) change neither style; and every final byte in
`[0x40, 0x7E]` returns the parser to the Text state. -/
theorem parseCSI_K_and_finals :
    (∀ (es : EscapeSequence) (st : ParseState),
        es.parameter = [] ∨ es.parameter = ['0'] →
        parseCSI es st 'K'
          = ({ es with state := .ansiText },
             { st with eolStyle := { st.eolStyle with bg := st.style.bg } })) ∧
    (∀ (es : EscapeSequence) (st : ParseState),
        es.parameter ≠ [] → es.parameter ≠ ['0'] →
        parseCSI es st 'K' = ({ es with state := .ansiText }, st)) ∧
    (∀ (es : EscapeSequence) (st : ParseState) (c : Char),
        'A' ≤ c → c ≤ 'T' → c ≠ 'K' →
        parseCSI es st c = ({ es with state := .ansiText }, st)) ∧
    (∀ (es : EscapeSequence) (st : ParseState) (c : Char),
        '\x40' ≤ c → c ≤ '\x7e' → (parseCSI es st c).1.state = .ansiText) := by
  refine ⟨?_, ?_, ?_, ?_⟩
  · intro es st h
    rcases h with h | h <;> simp [parseCSI, h]
  · intro es st h1 h2
    simp [parseCSI, h1, h2]
  · intro es st c h1 h2 hK
    have hm : c ≠ 'm' := by rintro rfl; exact absurd h2 (by decide)
    unfold parseCSI
    rw [if_neg hm, if_neg hK, if_pos ⟨h1, h2⟩]
  · intro es st c h1 h2
    unfold parseCSI
    split_ifs with g1 g2 g3 g4 g5 <;> try rfl
    exact absurd (le_trans h1 g5.2) (by decide)

/-- C6 witness: a `K` with empty parameter on a red background copies the
background into the end-of-line style. -/
theorem parseCSI_K_witness :
    parseCSI { state := .ansiControlSequence }
        { style := { bg := "red" }, eolStyle := {} } 'K'
      = ({ state := .ansiText },
         { style := { bg := "red" }, eolStyle := { bg := "red" } }) :=
  parseCSI_K_and_finals.1 { state := .ansiControlSequence }
    { style := { bg := "red" }, eolStyle := {} } (Or.inl rfl)

/-- C7: an SGR parameter string of `"0"`, `""` or `";"` resets to the
terminal default style with normal attributes, discarding every
previously set attribute, color and hyperlink, whatever the prior style;
the same holds when such a sequence is applied through the CSI `m`
final. -/
theorem sgrStyle_reset_default :
    (∀ style : TcellStyle,
        sgrStyle style "0".toList = TcellStyle.defaultNormal ∧
        sgrStyle style "".toList = TcellStyle.defaultNormal ∧
        sgrStyle style ";".toList = TcellStyle.defaultNormal) ∧
    TcellStyle.defaultNormal
      = { fg := "default", bg := "default", bold := false, dim := false,
          italic := false, underline := false, blink := false,
          reverse := false, strikeThrough := false, overLine := false,
          url := "", urlId := "" } ∧
    (∀ (es : EscapeSequence) (st : ParseState),
        es.parameter = "0".toList ∨ es.parameter = [] ∨ es.parameter = ";".toList →
        parseCSI es st 'm'
          = ({ es with state := .ansiText },
             { st with style := TcellStyle.defaultNormal })) := by
  refine ⟨?_, by decide, ?_⟩
  · intro style
    refine ⟨?_, ?_, ?_⟩ <;> simp [sgrStyle]
  · intro es st h
    have hs : sgrStyle st.style es.parameter = TcellStyle.defaultNormal := by
      rcases h with h | h | h <;> simp [sgrStyle, h]
    simp [parseCSI, hs]

/-- C7 witness: a bold hyperlinked style is fully reset by the `0`
parameter applied through CSI `m`. -/
theorem sgrStyle_reset_default_witness :
    parseCSI { parameter := ['0'], state := .ansiControlSequence }
        { style := { bold := true, url := "u" } } 'm'
      = ({ parameter := ['0'], state := .ansiText },
         { style := TcellStyle.defaultNormal }) :=
  sgrStyle_reset_default.2.2 { parameter := ['0'], state := .ansiControlSequence }
    { style := { bold := true, url := "u" } } (Or.inl rfl)

/-- C8: when the section delimiter regex matches no line of the document
(also the degraded state after a failed compile), the section-header
feature is a no-op: `sectionHeaderHeight` is 0, every line is tagged
`(0, n)` with `n` from 1, and the frame's `headerHeight` and effective
`topLN` are exactly those computed with the feature disabled. -/
theorem frameModel_no_match_degrades :
    ∀ (f : Nat → Bool) (docLen : Nat) (heightOf : Nat → Nat)
      (skip header shNum : Nat) (vH jH : Int) (showGotoF : Bool)
      (J : Int) (topLN : Nat),
      (∀ n, f n = false) →
      frameModel true f docLen heightOf skip header shNum vH jH showGotoF J topLN
        = frameModel false f docLen heightOf skip header shNum vH jH showGotoF J topLN ∧
      (frameModel true f docLen heightOf skip header shNum vH jH showGotoF J topLN).2.2
        = 0 ∧
      (frameModel true f docLen heightOf skip header shNum vH jH showGotoF J topLN).2.1
        = headerHeightModel heightOf skip header ∧
      (∀ n, sectionState f n = (0, n + 1)) := by
  intro f docLen heightOf skip header shNum vH jH showGotoF J topLN h
  have hany : (List.range docLen).any f = false := by
    simp [List.any_eq_false, h]
  have hshh : sectionHeaderHeightModel f docLen heightOf shNum topLN = 0 := by
    simp [sectionHeaderHeightModel, hany]
  refine ⟨?_, ?_, ?_, fun n => sectionState_all_false n (fun k _ => h k)⟩
  · simp [frameModel, hshh]
  · simp [frameModel, hshh]
  · simp [frameModel]

/-- C8 witness: with a never-matching delimiter on a 5-line document the
section-header height is 0. -/
theorem frameModel_no_match_witness :
    (frameModel true (fun _ => false) 5 (fun _ => 1) 0 3 3 24 0 true 10 10).2.2 = 0 :=
  (frameModel_no_match_degrades (fun _ => false) 5 (fun _ => 1) 0 3 3 24 0 true 10 10
    (fun _ => rfl)).2.1

/-- C9: the SGR cache is transparent: for a coherent cache (one whose
entries are the parses of their keys, the only entries the code ever
stores) the cache-hit path of `sgrStyle` equals applying the freshly
parsed delta, the cache stays coherent across any call, and re-inserting
the (identical, since parsing is deterministic) delta for a string does
not change any later result. -/
theorem sgrStyleC_cache_transparent :
    (∀ (cache : SGRCache) (style : TcellStyle) (p : List Char),
        CacheCoherent cache → (sgrStyleC cache style p).1 = sgrStyle style p) ∧
    (∀ (cache : SGRCache) (style : TcellStyle) (p : List Char),
        CacheCoherent cache → CacheCoherent (sgrStyleC cache style p).2) ∧
    (∀ (cache : SGRCache) (style : TcellStyle) (p q : List Char),
        CacheCoherent cache →
        (sgrStyleC ((p, parseSGR p) :: cache) style q).1 = sgrStyle style q) :=
  ⟨sgrStyleC_fst_of_coherent,
   sgrStyleC_snd_coherent,
   fun cache style p q h =>
     sgrStyleC_fst_of_coherent _ style q (coherent_insert cache p h)⟩

/-- C9 witness: on the empty cache (vacuously coherent) the cached and
pure results agree for the parameter string `31`. -/
theorem sgrStyleC_cache_transparent_witness :
    (sgrStyleC [] { bold := true } "31".toList).1
      = sgrStyle { bold := true } "31".toList :=
  sgrStyleC_cache_transparent.1 [] { bold := true } "31".toList
    (fun _ _ h => absurd h (List.not_mem_nil _))

/-- C10: in every parser state, the rune `0x1b` is consumed and
unconditionally moves the converter to the escape state before any
state-specific handling could run (converter builders and styles
untouched), and the rune `'\n'` is never consumed and changes nothing. -/
theorem convert_esc_intercept_newline_pass :
    (∀ (es : EscapeSequence) (st : ParseState), st.mainc = '\x1b' →
        convert es st = (true, { es with state := .ansiEscape }, st)) ∧
    (∀ (es : EscapeSequence) (st : ParseState), st.mainc = '\n' →
        convert es st = (false, es, st)) := by
  constructor
  · intro es st h
    simp [convert, h]
  · intro es st h
    have hne : st.mainc ≠ '\x1b' := by rw [h]; decide
    simp [convert, hne, h]

/-- C10 witness: while collecting an OSC URL, an escape is consumed and
the state becomes the escape state; a newline is not consumed there. -/
theorem convert_esc_intercept_witness :
    convert { url := "ab".toList, state := .oscURL } { mainc := '\x1b' }
      = (true, { url := "ab".toList, state := .ansiEscape }, { mainc := '\x1b' }) ∧
    convert { url := "ab".toList, state := .oscURL } { mainc := '\n' }
      = (false, { url := "ab".toList, state := .oscURL }, { mainc := '\n' }) :=
  ⟨convert_esc_intercept_newline_pass.1 _ _ rfl,
   convert_esc_intercept_newline_pass.2 _ _ rfl⟩
